import Mathlib

/-!
# RdEndpoint (rd-cpp, `rd_framework_cpp/src/main/task/RdEndpoint.h`)

A shallow embedding of `rd::RdEndpoint<TReq, TRes, ReqSer, ResSer>` and of the
collaborators its methods call (`RdId`, `Buffer`, `Lifetime`, `RdTask`, the wire), followed
by theorems about `read`, `write`, `set`, `init` and `on_wire_received`.

The C++ object graph is flattened into one explicit state, `World`: the endpoint's members,
the heap of task cells (an `RdTask` is a shared handle, here an index into that heap), the
lifetimes that have ended and the frames handed to the wire so far.
-/

namespace rd

/-! ## Collaborators -/

/-- Contents of a `Buffer`: for a read, what lies ahead of the cursor; for a write, what has been
written so far. Each element stands for one encoded unit. -/
abbrev Buffer := List Nat

/-- Modelled from the spec: `RdId`, the opaque, equality-comparable correlation token
(`RdId.h` is not among the sources). -/
structure RdId where
  hash : Nat
deriving DecidableEq, Repr

/-- Modelled from the spec: the identifier of an endpoint that has not been given one yet
(the `rdid` of a default-constructed `RdReactiveBase`; the concrete value is a placeholder). -/
def RdId.Null : RdId := ⟨0⟩

/-- Modelled from the spec: `Lifetime`, a scoped validity interval, identified by a number.
Whether it has ended is recorded in `World.terminated`. -/
structure Lifetime where
  id : Nat
deriving DecidableEq, Repr

/-- An object of a class derived from `std::exception`, carrying its `what()` text. -/
structure StdException where
  what : String
deriving DecidableEq, Repr

/-- The value `std::invalid_argument(what)`. -/
def invalid_argument (what : String) : StdException := ⟨what⟩

/-- What a C++ call can leave by other means than returning. -/
inductive Thrown where
  /-- An exception object that a `catch (std::exception const &)` clause catches. -/
  | exception (e : StdException)
  /-- Any other thrown value, which that clause does not catch. -/
  | other
  /-- Undefined behaviour: `*bind_lifetime` on an endpoint that was never `init`-ed. -/
  | undefined
deriving DecidableEq, Repr

/-- Modelled from the spec: `RdTaskResult<TRes, ResSer>`, the terminal outcomes of a task
(`RdTask.h` is not among the sources). -/
inductive RdTaskResult (Res : Type) where
  | Success (value : Res)
  | Cancelled
  | Fault (e : StdException)
deriving DecidableEq, Repr

/-- An `RdTask` object is a handle that shares its state with its copies; the state lives in
`World.tasks` and the handle is its index there. -/
abbrev RdTask := Nat

/-- The closure `on_wire_received` passes to `task.advise`, defunctionalised: it captures
`task_id` and, when run with a result, sends that result on the wire under `task_id`. The
lifetime is the one it was advised on. -/
structure Observer where
  lifetime : Lifetime
  task_id : RdId
deriving DecidableEq, Repr

/-- Modelled from the spec: the shared state of a task, a single-assignment result cell
(`none` is the `Active` state) with its registered completion observers. -/
structure TaskCell (Res : Type) where
  result : Option (RdTaskResult Res)
  observers : List Observer
deriving DecidableEq, Repr

/-- An outbound frame given to `IWire::send(id, writer)`: the tag and the result that the writer
`task_result.write(ctx, inner_buffer)` serialises as the body. -/
structure Frame (Res : Type) where
  id : RdId
  body : RdTaskResult Res
deriving DecidableEq, Repr

/-- How a call of the handler ends: it returns a task object it has created, either still
`Active` (`none`, to be completed later by whoever holds the handle) or already terminal, or
it throws. -/
inductive HandlerReturn (Res : Type) where
  | task (state : Option (RdTaskResult Res))
  | throws (e : Thrown)
deriving DecidableEq, Repr

/-- Translation of `handler_t = std::function<RdTask<TRes, ResSer>(Lifetime, TReq const &)>`. -/
abbrev handler_t (Req Res : Type) := Lifetime → Req → HandlerReturn Res

/-- The serializers `on_wire_received`, `read` and `write` call. They are not among the sources
and are taken as parameters: `RdId::read`, the bytes `RdId::write` emits, and `ReqSer::read`
together with the serialization context. A failing read throws. -/
structure Serializers (Req : Type) where
  id_encode : RdId → Buffer
  id_read : Buffer → Except Thrown (RdId × Buffer)
  req_read : Buffer → Except Thrown (Req × Buffer)

/-! ## The endpoint and the state around it -/

/-- The members of `RdEndpoint`: `rdid` and `bind_lifetime` (inherited from `RdReactiveBase`),
`handler` (an empty `std::function` is `none`) and `awaiting_tasks`, an insertion-ordered map
with unique keys. -/
structure RdEndpoint (Req Res : Type) where
  rdid : RdId
  handler : Option (handler_t Req Res)
  awaiting_tasks : List (RdId × RdTask)
  bind_lifetime : Option Lifetime

/-- The endpoint together with everything its methods touch. `handled` is a ghost log of the
requests the handler has been invoked with. -/
structure World (Req Res : Type) where
  endpoint : RdEndpoint Req Res
  tasks : List (TaskCell Res)
  terminated : List Lifetime
  sent : List (Frame Res)
  handled : List Req

variable {Req Res : Type}

/-- Translation of `tsl::ordered_map::operator[]` followed by an assignment: the value under
`key` is replaced in place, a missing key is appended. -/
def ordered_map_assign (m : List (RdId × RdTask)) (key : RdId) (value : RdTask) :
    List (RdId × RdTask) :=
  if m.any (fun p => p.1 == key) then
    m.map (fun p => if p.1 = key then (key, value) else p)
  else
    m ++ [(key, value)]

/-- Lookup in the ordered map. -/
def ordered_map_find (m : List (RdId × RdTask)) (key : RdId) : Option RdTask :=
  (m.find? (fun p => p.1 == key)).map Prod.snd

/-- Translation of `awaiting_tasks[task_id] = task`. -/
def World.set_awaiting (w : World Req Res) (task_id : RdId) (task : RdTask) : World Req Res :=
  { w with endpoint :=
      { w.endpoint with
        awaiting_tasks := ordered_map_assign w.endpoint.awaiting_tasks task_id task } }

/-- Modelled from the spec: `send(call_id, write_fn)` of the wire, as called from the completion
callback: a frame tagged `task_id` whose body the writer produces is handed over for
transmission (`IWire` is not among the sources). -/
def Wire.send (task_id : RdId) (task_result : RdTaskResult Res) (w : World Req Res) :
    World Req Res :=
  { w with sent := w.sent ++ [⟨task_id, task_result⟩] }

/-- Modelled from the spec: construction of a task object with the given state (`none` for
the default constructor, which gives an `Active` task); the new handle is returned. -/
def RdTask.create (state : Option (RdTaskResult Res)) (w : World Req Res) :
    RdTask × World Req Res :=
  (w.tasks.length, { w with tasks := w.tasks ++ [⟨state, []⟩] })

/-- Modelled from the spec: `RdTask::from_result(value)`, an already `Succeeded` task. -/
def RdTask.from_result (value : Res) : Option (RdTaskResult Res) :=
  some (.Success value)

/-- Modelled from the spec: completion notification. Every registered observer runs once, in
registration order, unless its lifetime has ended. -/
def RdTask.notify (task_result : RdTaskResult Res) (observers : List Observer)
    (w : World Req Res) : World Req Res :=
  observers.foldl
    (fun w ob => if ob.lifetime ∈ w.terminated then w else Wire.send ob.task_id task_result w) w

/-- Modelled from the spec: the transition of a task out of `Active` (`set`, `fault`, `cancel`).
It happens at most once: on a task that is already terminal nothing changes. -/
def RdTask.set_result (task : RdTask) (task_result : RdTaskResult Res) (w : World Req Res) :
    World Req Res :=
  match w.tasks[task]? with
  | some ⟨none, observers⟩ =>
    RdTask.notify task_result observers { w with tasks := w.tasks.set task ⟨some task_result, []⟩ }
  | _ => w

/-- Modelled from the spec: `RdTask::fault(e)`. -/
def RdTask.fault (task : RdTask) (e : StdException) (w : World Req Res) : World Req Res :=
  RdTask.set_result task (.Fault e) w

/-- Modelled from the spec: `RdTask::advise(lifetime, callback)` for the callback of
`on_wire_received`. On a lifetime that has ended nothing is registered; on a terminal task the
callback runs before `advise` returns; on an `Active` task it is registered. -/
def RdTask.advise (task : RdTask) (lifetime : Lifetime) (task_id : RdId) (w : World Req Res) :
    World Req Res :=
  if lifetime ∈ w.terminated then w
  else
    match w.tasks[task]? with
    | some ⟨some task_result, _⟩ => Wire.send task_id task_result w
    | some ⟨none, observers⟩ =>
      { w with tasks := w.tasks.set task ⟨none, observers ++ [⟨lifetime, task_id⟩]⟩ }
    | none => w

/-- Modelled from the spec: the end of a lifetime. -/
def Lifetime.terminate (lifetime : Lifetime) (w : World Req Res) : World Req Res :=
  { w with terminated := lifetime :: w.terminated }

/-- Modelled from the spec: `RD_ASSERT_MSG(expr, msg)` reports `msg` when `expr` is false
(the macro is not among the sources). -/
def RD_ASSERT_MSG (expr : Bool) (msg : String) : Option String :=
  if expr then none else some msg

/-! ## RdEndpoint's methods -/

/-- Translation of `RdEndpoint() = default`. -/
def RdEndpoint.default : RdEndpoint Req Res :=
  { rdid := RdId.Null, handler := none, awaiting_tasks := [], bind_lifetime := none }

/-- Modelled from the spec: `withId(res, id)` gives the object its identifier. -/
def withId (res : RdEndpoint Req Res) (id : RdId) : RdEndpoint Req Res :=
  { res with rdid := id }

/-- Modelled from the spec: `Identifier.write(buffer)` puts the identifier's encoding, the
parameter `id_encode`, at the end of what has been written. -/
def RdId.write (S : Serializers Req) (id : RdId) (buffer : Buffer) : Buffer :=
  buffer ++ S.id_encode id

/-- Translation of `RdEndpoint::read(ctx, buffer)`; the buffer left is returned too. -/
def RdEndpoint.read (S : Serializers Req) (buffer : Buffer) :
    Except Thrown (RdEndpoint Req Res × Buffer) :=
  match S.id_read buffer with
  | .error e => .error e
  | .ok (id, buffer) => .ok (withId RdEndpoint.default id, buffer)

/-- Translation of `RdEndpoint::write(ctx, buffer)`. -/
def RdEndpoint.write (S : Serializers Req) (ep : RdEndpoint Req Res) (buffer : Buffer) : Buffer :=
  RdId.write S ep.rdid buffer

/-- Translation of `RdEndpoint::set(handler_t handler)`. Inside the method the name `handler`
is the parameter, so the assertion tests the argument; the assignment follows. The second
component is what the assertion reports. -/
def RdEndpoint.set (handler : Option (handler_t Req Res)) (ep : RdEndpoint Req Res) :
    RdEndpoint Req Res × Option String :=
  ({ ep with handler := handler }, RD_ASSERT_MSG handler.isSome "handler is set already")

/-- Translation of `RdEndpoint::set(std::function<WTRes(TReq const &)> handler)`: the stored
handler calls the plain function and wraps what it returns with `from_result`. -/
def RdEndpoint.set_fn (handler : Req → Except Thrown Res) (ep : RdEndpoint Req Res) :
    RdEndpoint Req Res :=
  { ep with handler := some (fun _ req =>
      match handler req with
      | .ok value => .task (RdTask.from_result value)
      | .error e => .throws e) }

/-- Translation of `RdEndpoint::init(lifetime)`: `bind_lifetime = lifetime`. The base class's
`init` and the wire's routing table (`get_wire()->advise(lifetime, this)`) are outside the
state; frames reach the endpoint through `on_wire_received`. -/
def RdEndpoint.init (lifetime : Lifetime) (w : World Req Res) : World Req Res :=
  { w with endpoint := { w.endpoint with bind_lifetime := some lifetime } }

/-- Translation of `RdEndpoint::on_wire_received(buffer)`. The result is the state the call
leaves and, when the call ends by a throw, what was thrown. -/
def RdEndpoint.on_wire_received (S : Serializers Req) (buffer : Buffer) (w : World Req Res) :
    World Req Res × Option Thrown :=
  match S.id_read buffer with
  | .error e => (w, some e)
  | .ok (task_id, buffer) =>
    match S.req_read buffer with
    | .error e => (w, some e)
    | .ok (value, _) =>
      match w.endpoint.handler with
      | none => (w, some (.exception (invalid_argument "handler is empty for RdEndPoint")))
      | some handler =>
        -- auto & task = awaiting_tasks[task_id] = {};
        let fresh := RdTask.create none w
        let w1 := fresh.2.set_awaiting task_id fresh.1
        match w1.endpoint.bind_lifetime with
        | none => (w1, some .undefined)
        | some bind_lifetime =>
          let w2 := { w1 with handled := w1.handled ++ [value] }
          match handler bind_lifetime value with
          | .throws (.exception e) =>
            -- catch (std::exception const &e) { task.fault(e); }
            (RdTask.advise fresh.1 bind_lifetime task_id (RdTask.fault fresh.1 e w2), none)
          | .throws e => (w2, some e)
          | .task state =>
            -- task = handler(*bind_lifetime, value);
            let returned := RdTask.create state w2
            let w3 := returned.2.set_awaiting task_id returned.1
            (RdTask.advise returned.1 bind_lifetime task_id w3, none)

/-! ## What happens around the endpoint -/

/-- The things that happen to a bound endpoint: the wire delivers a frame, the holder of a task
handle completes the task, a lifetime ends. -/
inductive Event (Res : Type) where
  | wire_received (buffer : Buffer)
  | complete (task : RdTask) (task_result : RdTaskResult Res)
  | terminate (lifetime : Lifetime)

/-- One event. An exception leaving `on_wire_received` goes to the wire; the state stays as the
call left it. -/
def World.step (S : Serializers Req) (w : World Req Res) : Event Res → World Req Res
  | .wire_received buffer => (RdEndpoint.on_wire_received S buffer w).1
  | .complete task task_result => RdTask.set_result task task_result w
  | .terminate lifetime => Lifetime.terminate lifetime w

/-- A sequence of events, left to right. -/
def World.run (S : Serializers Req) (w : World Req Res) (events : List (Event Res)) :
    World Req Res :=
  events.foldl (World.step S) w

/-- The frames of `sent` that carry the tag `c`. -/
def World.sent_for (w : World Req Res) (c : RdId) : List (Frame Res) :=
  w.sent.filter (fun fr => fr.id = c)

/-- The event neither completes the task `t` nor ends the lifetime `lt`. -/
def Event.spares (t : RdTask) (lt : Lifetime) : Event Res → Prop
  | .wire_received _ => True
  | .complete task _ => task ≠ t
  | .terminate lifetime => lifetime ≠ lt

instance Event.spares_decidable (t : RdTask) (lt : Lifetime) :
    (e : Event Res) → Decidable (Event.spares t lt e)
  | .wire_received _ => isTrue trivial
  | .complete task _ => inferInstanceAs (Decidable (task ≠ t))
  | .terminate lifetime => inferInstanceAs (Decidable (lifetime ≠ lt))

/-- Whether the event is something else than the delivery of a frame whose call id reads
as `c`. -/
def Event.is_foreign (S : Serializers Req) (c : RdId) : Event Res → Bool
  | .wire_received buffer =>
    match S.id_read buffer with
    | .ok (task_id, _) => decide (task_id ≠ c)
    | .error _ => true
  | _ => true

/-- The event is not the delivery of a frame whose call id reads as `c`. -/
def Event.foreign (S : Serializers Req) (c : RdId) (e : Event Res) : Prop :=
  e.is_foreign S c = true

instance Event.foreign_decidable (S : Serializers Req) (c : RdId) (e : Event Res) :
    Decidable (Event.foreign S c e) :=
  inferInstanceAs (Decidable (e.is_foreign S c = true))

/-- The task `t` is `Active` and its only observer is the one `on_wire_received` registered on
`lt` for the call id `c`. -/
def World.pending (w : World Req Res) (t : RdTask) (lt : Lifetime) (c : RdId) : Prop :=
  w.tasks[t]? = some ⟨none, [⟨lt, c⟩]⟩

/-- No task other than `t` has an observer that would send under the call id `c`. -/
def World.quiet (w : World Req Res) (t : RdTask) (c : RdId) : Prop :=
  ∀ (i : Nat) (cell : TaskCell Res), w.tasks[i]? = some cell → i ≠ t →
    ∀ ob ∈ cell.observers, ob.task_id ≠ c

/-- The task `t` exists and has no observer registered. -/
def World.idle (w : World Req Res) (t : RdTask) : Prop :=
  ∃ state : Option (RdTaskResult Res), w.tasks[t]? = some ⟨state, []⟩

/-- The lifetime `lt` the endpoint is bound to has ended, and so has the lifetime of every
observer that would send under the call id `c`. -/
def World.muted (w : World Req Res) (lt : Lifetime) (c : RdId) : Prop :=
  lt ∈ w.terminated ∧ w.endpoint.bind_lifetime = some lt ∧
  ∀ (i : Nat) (cell : TaskCell Res), w.tasks[i]? = some cell →
    ∀ ob ∈ cell.observers, ob.task_id = c → ob.lifetime ∈ w.terminated

/-! ## A concrete instance (integers in, integers out) -/

/-- A serializer pair for `Req = Nat`: an identifier and a request take one unit each. -/
def demo_serializers : Serializers Nat where
  id_encode := fun id => [id.hash]
  id_read := fun buffer =>
    match buffer with
    | [] => .error (.exception ⟨"end of buffer"⟩)
    | x :: rest => .ok (⟨x⟩, rest)
  req_read := fun buffer =>
    match buffer with
    | [] => .error (.exception ⟨"end of buffer"⟩)
    | x :: rest => .ok (x, rest)

/-- A fresh endpoint with identifier 1, no handler, bound to nothing, and nothing around it. -/
def demo_world : World Nat Nat :=
  { endpoint := withId RdEndpoint.default ⟨1⟩, tasks := [], terminated := [], sent := [],
    handled := [] }

/-- The state `w` with the handler `h` given to `set`. -/
def World.set_handler (w : World Req Res) (h : handler_t Req Res) : World Req Res :=
  { w with endpoint := (w.endpoint.set (some h)).1 }

/-- The plain function `f(x) = x + 1`. -/
def demo_succ : Nat → Except Thrown Nat := fun x => .ok (x + 1)

/-- A plain function that throws `std::runtime_error("boom")` on every request. -/
def demo_boom : Nat → Except Thrown Nat := fun _ => .error (.exception ⟨"boom"⟩)

/-- A handler that throws `std::runtime_error("boom")` for the request 0 and otherwise returns
a task already succeeded with the successor. -/
def demo_partial : handler_t Nat Nat := fun _ x =>
  if x = 0 then .throws (.exception ⟨"boom"⟩) else .task (some (.Success (x + 1)))

/-- A handler whose task is still `Active` when it returns. -/
def demo_async : handler_t Nat Nat := fun _ _ => .task none

/-- The demo endpoint with `demo_async` as handler, bound to lifetime 0, after the frame
`{call_id = 9, payload = 1}`: the call 9 is pending on the task with handle 1. -/
def demo_busy_world : World Nat Nat :=
  World.run demo_serializers (RdEndpoint.init ⟨0⟩ (demo_world.set_handler demo_async))
    [.wire_received [9, 1]]

/-! ## Effects of the single operations -/

theorem notify_eq (r : RdTaskResult Res) (obs : List Observer) (w : World Req Res) :
    RdTask.notify r obs w
      = { w with sent := w.sent ++ List.map (fun ob => ⟨ob.task_id, r⟩)
                  (obs.filter (fun ob => decide (ob.lifetime ∉ w.terminated))) } := by
  unfold RdTask.notify
  induction obs generalizing w with
  | nil => simp
  | cons ob obs ih =>
    rw [List.foldl_cons]
    by_cases hob : ob.lifetime ∈ w.terminated
    · simp [hob, ih]
    · rw [if_neg hob, ih]
      simp [Wire.send, hob]

theorem set_result_eq (t : RdTask) (r : RdTaskResult Res) (w : World Req Res) :
    RdTask.set_result t r w = w ∨
    ∃ obs, w.tasks[t]? = some ⟨none, obs⟩ ∧
      RdTask.set_result t r w
        = { w with
            tasks := w.tasks.set t ⟨some r, []⟩
            sent := w.sent ++ List.map (fun ob => ⟨ob.task_id, r⟩)
                  (obs.filter (fun ob => decide (ob.lifetime ∉ w.terminated))) } := by
  unfold RdTask.set_result
  split
  · rename_i obs hcell
    exact Or.inr ⟨obs, hcell, by rw [notify_eq]⟩
  · exact Or.inl rfl

/-- Completing a pending task on a live lifetime sends exactly its one frame. -/
theorem set_result_pending (w : World Req Res) (t : RdTask) (lt : Lifetime) (c : RdId)
    (o : RdTaskResult Res) (hp : w.pending t lt c) (hlive : lt ∉ w.terminated) :
    RdTask.set_result t o w
      = { w with tasks := w.tasks.set t ⟨some o, []⟩, sent := w.sent ++ [⟨c, o⟩] } := by
  unfold World.pending at hp
  unfold RdTask.set_result
  rw [hp]
  simp [notify_eq, hlive]

/-- What `on_wire_received` can do to the state: it leaves the ended lifetimes and the
endpoint's `rdid`, `handler` and `bind_lifetime` alone, appends task cells whose observers are
tagged with the call id read and registered on the live bound lifetime, and appends frames
tagged with the call id read, none unless the bound lifetime is alive. -/
theorem on_wire_received_effect (S : Serializers Req) (buffer : Buffer) (w : World Req Res) :
    (RdEndpoint.on_wire_received S buffer w).1.terminated = w.terminated ∧
    (RdEndpoint.on_wire_received S buffer w).1.endpoint.handler = w.endpoint.handler ∧
    (RdEndpoint.on_wire_received S buffer w).1.endpoint.bind_lifetime
      = w.endpoint.bind_lifetime ∧
    (RdEndpoint.on_wire_received S buffer w).1.endpoint.rdid = w.endpoint.rdid ∧
    ∃ (extra : List (TaskCell Res)) (frames : List (Frame Res)),
      (RdEndpoint.on_wire_received S buffer w).1.tasks = w.tasks ++ extra ∧
      (RdEndpoint.on_wire_received S buffer w).1.sent = w.sent ++ frames ∧
      (∀ cell ∈ extra, ∀ ob ∈ cell.observers,
        (∃ rest, S.id_read buffer = .ok (ob.task_id, rest)) ∧
        w.endpoint.bind_lifetime = some ob.lifetime ∧ ob.lifetime ∉ w.terminated) ∧
      (∀ fr ∈ frames,
        (∃ rest, S.id_read buffer = .ok (fr.id, rest)) ∧
        ∃ lt, w.endpoint.bind_lifetime = some lt ∧ lt ∉ w.terminated) := by
  unfold RdEndpoint.on_wire_received
  split
  · exact ⟨rfl, rfl, rfl, rfl, [], [], by simp, by simp, by simp, by simp⟩
  · rename_i task_id rest hid
    split
    · exact ⟨rfl, rfl, rfl, rfl, [], [], by simp, by simp, by simp, by simp⟩
    · rename_i value rest' hreq
      split
      · exact ⟨rfl, rfl, rfl, rfl, [], [], by simp, by simp, by simp, by simp⟩
      · rename_i handler hh
        simp only [RdTask.create, World.set_awaiting]
        split
        · exact ⟨rfl, rfl, rfl, rfl, [⟨none, []⟩], [], rfl, by simp, by simp, by simp⟩
        · rename_i lt hlt
          have hlt' : w.endpoint.bind_lifetime = some lt := hlt
          split
          · rename_i e he
            by_cases hdead : lt ∈ w.terminated
            · refine ⟨?_, ?_, ?_, ?_, [⟨some (.Fault e), []⟩], [], ?_, ?_, ?_, ?_⟩ <;>
                simp [RdTask.advise, RdTask.fault, RdTask.set_result, RdTask.notify, Wire.send,
                  hdead, hlt', List.getElem_append_right]
            · refine ⟨?_, ?_, ?_, ?_, [⟨some (.Fault e), []⟩], [⟨task_id, .Fault e⟩],
                  ?_, ?_, ?_, ?_⟩ <;>
                simp [RdTask.advise, RdTask.fault, RdTask.set_result, RdTask.notify, Wire.send,
                  hdead, hlt', hid, List.getElem_append_right]
          · exact ⟨rfl, rfl, rfl, rfl, [⟨none, []⟩], [], rfl, by simp, by simp, by simp⟩
          · rename_i state hstate
            by_cases hdead : lt ∈ w.terminated
            · refine ⟨?_, ?_, ?_, ?_, [⟨none, []⟩, ⟨state, []⟩], [], ?_, ?_, ?_, ?_⟩ <;>
                simp [RdTask.advise, Wire.send, hdead, hlt', List.getElem_append_right]
            · cases state with
              | none =>
                refine ⟨?_, ?_, ?_, ?_, [⟨none, []⟩, ⟨none, [⟨lt, task_id⟩]⟩], [],
                    ?_, ?_, ?_, ?_⟩ <;>
                  simp [RdTask.advise, Wire.send, hdead, hlt', hid, List.getElem_append_right,
                    List.set_append]
              | some r =>
                refine ⟨?_, ?_, ?_, ?_, [⟨none, []⟩, ⟨some r, []⟩], [⟨task_id, r⟩],
                    ?_, ?_, ?_, ?_⟩ <;>
                  simp [RdTask.advise, Wire.send, hdead, hlt', hid, List.getElem_append_right]

/-! ## What events preserve -/

theorem pending_lt_length (w : World Req Res) (t : RdTask) (lt : Lifetime) (c : RdId)
    (hp : w.pending t lt c) : t < w.tasks.length := by
  unfold World.pending at hp
  exact (List.getElem?_eq_some.mp hp).1

theorem set_result_terminated (t : RdTask) (r : RdTaskResult Res) (w : World Req Res) :
    (RdTask.set_result t r w).terminated = w.terminated := by
  rcases set_result_eq t r w with h | ⟨obs, _, h⟩ <;> rw [h]

theorem set_result_endpoint (t : RdTask) (r : RdTaskResult Res) (w : World Req Res) :
    (RdTask.set_result t r w).endpoint = w.endpoint := by
  rcases set_result_eq t r w with h | ⟨obs, _, h⟩ <;> rw [h]

/-- An event that spares a pending task and its lifetime leaves the task pending. -/
theorem step_pending (S : Serializers Req) (w : World Req Res) (t : RdTask) (lt : Lifetime)
    (c : RdId) (e : Event Res) (hp : w.pending t lt c) (hs : e.spares t lt) :
    (w.step S e).pending t lt c := by
  have hlen := pending_lt_length w t lt c hp
  cases e with
  | wire_received buffer =>
    obtain ⟨_, _, _, _, extra, frames, htasks, _, _, _⟩ := on_wire_received_effect S buffer w
    simp only [World.pending, World.step]
    rw [htasks, List.getElem?_append_left hlen]
    exact hp
  | complete task r =>
    have hne : task ≠ t := hs
    simp only [World.pending, World.step]
    rcases set_result_eq task r w with h | ⟨obs, _, h⟩
    · rw [h]
      exact hp
    · rw [h]
      simp only [List.getElem?_set_ne hne]
      exact hp
  | terminate lifetime => exact hp

/-- An event that does not end `lt` leaves it alive. -/
theorem step_alive (S : Serializers Req) (w : World Req Res) (t : RdTask) (lt : Lifetime)
    (e : Event Res) (hlive : lt ∉ w.terminated) (hs : e.spares t lt) :
    lt ∉ (w.step S e).terminated := by
  cases e with
  | wire_received buffer =>
    unfold World.step
    rw [(on_wire_received_effect S buffer w).1]
    exact hlive
  | complete task r =>
    unfold World.step
    rw [set_result_terminated]
    exact hlive
  | terminate lifetime =>
    have hne : lifetime ≠ lt := hs
    simp [World.step, Lifetime.terminate, hlive, Ne.symm hne]

theorem run_pending (S : Serializers Req) (t : RdTask) (lt : Lifetime) (c : RdId)
    (es : List (Event Res)) (w : World Req Res)
    (hp : w.pending t lt c) (hlive : lt ∉ w.terminated) (hs : ∀ e ∈ es, Event.spares t lt e) :
    (w.run S es).pending t lt c ∧ lt ∉ (w.run S es).terminated := by
  induction es generalizing w with
  | nil => exact ⟨hp, hlive⟩
  | cons e es ih =>
    have he := hs e (List.mem_cons_self e es)
    exact ih (w.step S e) (step_pending S w t lt c e hp he) (step_alive S w t lt e hlive he)
      (fun e' he' => hs e' (List.mem_cons_of_mem e he'))

/-- While no other task has an observer for `c`, an event that is neither a frame with call id
`c` nor the completion of `t` sends nothing under `c`. -/
theorem step_quiet (S : Serializers Req) (w : World Req Res) (t : RdTask) (lt : Lifetime)
    (c : RdId) (e : Event Res) (hq : w.quiet t c)
    (hs : e.spares t lt) (hf : e.foreign S c) :
    (w.step S e).quiet t c ∧ (w.step S e).sent_for c = w.sent_for c := by
  cases e with
  | wire_received buffer =>
    obtain ⟨_, _, _, _, extra, frames, htasks, hsent, hextra, hframes⟩ :=
      on_wire_received_effect S buffer w
    have hid : ∀ c' rest, S.id_read buffer = .ok (c', rest) → c' ≠ c := by
      intro c' rest h
      have := hf
      simp only [Event.foreign, Event.is_foreign, h] at this
      simpa using this
    constructor
    · intro i cell hcell hi ob hob
      simp only [World.step] at hcell
      rw [htasks] at hcell
      by_cases hil : i < w.tasks.length
      · rw [List.getElem?_append_left hil] at hcell
        exact hq i cell hcell hi ob hob
      · rw [List.getElem?_append_right (Nat.le_of_not_lt hil)] at hcell
        obtain ⟨⟨rest, hr⟩, _⟩ := hextra cell (List.mem_iff_getElem?.mpr ⟨_, hcell⟩) ob hob
        exact hid _ rest hr
    · simp only [World.step, World.sent_for]
      rw [hsent, List.filter_append]
      have : frames.filter (fun fr => decide (fr.id = c)) = [] := by
        rw [List.filter_eq_nil_iff]
        intro fr hfr
        obtain ⟨⟨rest, hr⟩, _⟩ := hframes fr hfr
        simpa using hid _ rest hr
      rw [this, List.append_nil]
  | complete task r =>
    have hne : task ≠ t := hs
    rcases set_result_eq task r w with h | ⟨obs, hcell, h⟩
    · simp only [World.step]
      rw [h]
      exact ⟨hq, rfl⟩
    · simp only [World.step]
      rw [h]
      constructor
      · intro i cell hi hit ob hob
        simp only at hi
        by_cases hitask : task = i
        · subst hitask
          rw [List.getElem?_set_self (List.getElem?_eq_some.mp hcell).1] at hi
          cases hi
          simp at hob
        · rw [List.getElem?_set_ne hitask] at hi
          exact hq i cell hi hit ob hob
      · simp only [World.sent_for]
        rw [List.filter_append]
        have : (List.map (fun ob : Observer => (⟨ob.task_id, r⟩ : Frame Res))
            (obs.filter (fun ob => decide (ob.lifetime ∉ w.terminated)))).filter
              (fun fr => decide (fr.id = c)) = [] := by
          rw [List.filter_eq_nil_iff]
          intro fr hfr
          obtain ⟨ob, hob, rfl⟩ := List.mem_map.mp hfr
          simpa using hq task _ hcell hne ob (List.mem_of_mem_filter hob)
        rw [this, List.append_nil]
  | terminate lifetime => exact ⟨hq, rfl⟩

theorem run_quiet (S : Serializers Req) (t : RdTask) (lt : Lifetime) (c : RdId)
    (es : List (Event Res)) (w : World Req Res)
    (hp : w.pending t lt c) (hq : w.quiet t c)
    (hs : ∀ e ∈ es, Event.spares t lt e ∧ Event.foreign S c e) :
    (w.run S es).quiet t c ∧ (w.run S es).sent_for c = w.sent_for c := by
  induction es generalizing w with
  | nil => exact ⟨hq, rfl⟩
  | cons e es ih =>
    have he := hs e (List.mem_cons_self e es)
    have hstep := step_quiet S w t lt c e hq he.1 he.2
    have := ih (w.step S e) (step_pending S w t lt c e hp he.1) hstep.1
      (fun e' he' => hs e' (List.mem_cons_of_mem e he'))
    exact ⟨this.1, this.2.trans hstep.2⟩

/-- Once the bound lifetime and the lifetimes of all observers for `c` have ended, no event
sends anything under `c`. -/
theorem step_muted (S : Serializers Req) (w : World Req Res) (lt : Lifetime) (c : RdId)
    (e : Event Res) (hm : w.muted lt c) :
    (w.step S e).muted lt c ∧ (w.step S e).sent_for c = w.sent_for c := by
  obtain ⟨hdead, hbound, hobs⟩ := hm
  cases e with
  | wire_received buffer =>
    obtain ⟨hterm, _, hb, _, extra, frames, htasks, hsent, hextra, hframes⟩ :=
      on_wire_received_effect S buffer w
    have hframes' : frames = [] := by
      cases frames with
      | nil => rfl
      | cons fr frs =>
        obtain ⟨_, lt', hlt', hlive'⟩ := hframes fr (List.mem_cons_self fr frs)
        rw [hbound] at hlt'
        cases hlt'
        exact absurd hdead hlive'
    refine ⟨⟨?_, ?_, ?_⟩, ?_⟩
    · simp only [World.step]
      rw [hterm]
      exact hdead
    · simp only [World.step]
      rw [hb]
      exact hbound
    · intro i cell hcell ob hob hc
      simp only [World.step] at hcell ⊢
      rw [hterm]
      rw [htasks] at hcell
      by_cases hil : i < w.tasks.length
      · rw [List.getElem?_append_left hil] at hcell
        exact hobs i cell hcell ob hob hc
      · rw [List.getElem?_append_right (Nat.le_of_not_lt hil)] at hcell
        obtain ⟨_, hlt', hlive'⟩ := hextra cell (List.mem_iff_getElem?.mpr ⟨_, hcell⟩) ob hob
        rw [hbound] at hlt'
        cases hlt'
        exact absurd hdead hlive'
    · simp only [World.step, World.sent_for]
      rw [hsent, hframes', List.append_nil]
  | complete task r =>
    rcases set_result_eq task r w with h | ⟨obs, hcell, h⟩
    · simp only [World.step]
      rw [h]
      exact ⟨⟨hdead, hbound, hobs⟩, rfl⟩
    · simp only [World.step]
      rw [h]
      refine ⟨⟨hdead, hbound, ?_⟩, ?_⟩
      · intro i cell hi ob hob hc
        simp only at hi ⊢
        by_cases hitask : task = i
        · subst hitask
          rw [List.getElem?_set_self (List.getElem?_eq_some.mp hcell).1] at hi
          cases hi
          simp at hob
        · rw [List.getElem?_set_ne hitask] at hi
          exact hobs i cell hi ob hob hc
      · simp only [World.sent_for]
        rw [List.filter_append]
        have : (List.map (fun ob : Observer => (⟨ob.task_id, r⟩ : Frame Res))
            (obs.filter (fun ob => decide (ob.lifetime ∉ w.terminated)))).filter
              (fun fr => decide (fr.id = c)) = [] := by
          rw [List.filter_eq_nil_iff]
          intro fr hfr
          obtain ⟨ob, hob, rfl⟩ := List.mem_map.mp hfr
          have hob' := List.mem_filter.mp hob
          have halive : ob.lifetime ∉ w.terminated := by simpa using hob'.2
          intro hc
          exact halive (hobs task _ hcell ob hob'.1 (by simpa using hc))
        rw [this, List.append_nil]
  | terminate lifetime =>
    refine ⟨⟨?_, hbound, ?_⟩, rfl⟩
    · simp [World.step, Lifetime.terminate, hdead]
    · intro i cell hcell ob hob hc
      have := hobs i cell hcell ob hob hc
      simp [World.step, Lifetime.terminate, this]

theorem run_muted (S : Serializers Req) (lt : Lifetime) (c : RdId)
    (es : List (Event Res)) (w : World Req Res) (hm : w.muted lt c) :
    (w.run S es).sent_for c = w.sent_for c := by
  induction es generalizing w with
  | nil => rfl
  | cons e es ih =>
    have hstep := step_muted S w lt c e hm
    exact (ih (w.step S e) hstep.1).trans hstep.2

theorem step_bind_lifetime (S : Serializers Req) (w : World Req Res) (e : Event Res) :
    (w.step S e).endpoint.bind_lifetime = w.endpoint.bind_lifetime := by
  cases e with
  | wire_received buffer => exact (on_wire_received_effect S buffer w).2.2.1
  | complete task r =>
    simp only [World.step]
    rw [set_result_endpoint]
  | terminate lifetime => rfl

theorem run_bind_lifetime (S : Serializers Req) (es : List (Event Res)) (w : World Req Res) :
    (w.run S es).endpoint.bind_lifetime = w.endpoint.bind_lifetime := by
  induction es generalizing w with
  | nil => rfl
  | cons e es ih => exact (ih (w.step S e)).trans (step_bind_lifetime S w e)

theorem find_map_assign (m : List (RdId × RdTask)) (key : RdId) (value : RdTask)
    (h : ∃ p ∈ m, p.1 = key) :
    List.find? (fun p => p.1 == key) (m.map (fun p => if p.1 = key then (key, value) else p))
      = some (key, value) := by
  induction m with
  | nil => simp at h
  | cons p m ih =>
    by_cases hp : p.1 = key
    · simp [hp]
    · have hrest : ∃ q ∈ m, q.1 = key := by
        obtain ⟨q, hq, hqk⟩ := h
        rcases List.mem_cons.mp hq with rfl | hq'
        · exact absurd hqk hp
        · exact ⟨q, hq', hqk⟩
      simp only [List.map_cons, if_neg hp]
      rw [List.find?_cons_of_neg _ (by simpa using hp)]
      exact ih hrest

theorem find_append_assign (m : List (RdId × RdTask)) (key : RdId) (value : RdTask)
    (h : ∀ p ∈ m, p.1 ≠ key) :
    List.find? (fun p => p.1 == key) (m ++ [(key, value)]) = some (key, value) := by
  induction m with
  | nil => simp
  | cons p m ih =>
    have hp : p.1 ≠ key := h p (List.mem_cons_self _ _)
    rw [List.cons_append, List.find?_cons_of_neg _ (by simpa using hp)]
    exact ih (fun q hq => h q (List.mem_cons_of_mem _ hq))

/-- After `awaiting_tasks[key] = value` the map holds `value` under `key`. -/
theorem ordered_map_find_assign (m : List (RdId × RdTask)) (key : RdId) (value : RdTask) :
    ordered_map_find (ordered_map_assign m key value) key = some value := by
  unfold ordered_map_find ordered_map_assign
  by_cases hany : (m.any fun p => p.1 == key) = true
  · rw [if_pos hany, find_map_assign m key value (by simpa using hany)]
    rfl
  · have hnone : ∀ p ∈ m, p.1 ≠ key := by
      intro p hp hk
      exact hany (List.any_eq_true.mpr ⟨p, hp, by simpa using hk⟩)
    rw [if_neg hany, find_append_assign m key value hnone]
    rfl

/-- The state `on_wire_received` leaves when the handler returns a task that is still
`Active`: nothing is sent, the handler has been invoked once, and the returned task, which
`awaiting_tasks` now holds under `c`, has the one observer registered on the bound lifetime. -/
theorem on_wire_received_active (S : Serializers Req) (w : World Req Res)
    (h : handler_t Req Res) (lt : Lifetime) (buffer rest rest' : Buffer) (c : RdId) (r : Req)
    (hh : w.endpoint.handler = some h)
    (hbound : w.endpoint.bind_lifetime = some lt) (hlive : lt ∉ w.terminated)
    (hid : S.id_read buffer = .ok (c, rest)) (hreq : S.req_read rest = .ok (r, rest'))
    (hactive : h lt r = .task none) :
    (RdEndpoint.on_wire_received S buffer w).2 = none ∧
    (RdEndpoint.on_wire_received S buffer w).1.sent = w.sent ∧
    (RdEndpoint.on_wire_received S buffer w).1.terminated = w.terminated ∧
    (RdEndpoint.on_wire_received S buffer w).1.handled = w.handled ++ [r] ∧
    (RdEndpoint.on_wire_received S buffer w).1.tasks
      = w.tasks ++ [⟨none, []⟩, ⟨none, [⟨lt, c⟩]⟩] ∧
    ordered_map_find (RdEndpoint.on_wire_received S buffer w).1.endpoint.awaiting_tasks c
      = some (w.tasks.length + 1) := by
  simp [RdEndpoint.on_wire_received, hh, hid, hreq, hactive, hbound, RdTask.advise,
    RdTask.create, World.set_awaiting, hlive, List.getElem_append_right, List.set_append,
    ordered_map_find_assign]

theorem pending_of_tasks (w1 : World Req Res) (cells : List (TaskCell Res)) (lt : Lifetime)
    (c : RdId) (htasks : w1.tasks = cells ++ [⟨none, []⟩, ⟨none, [⟨lt, c⟩]⟩]) :
    w1.pending (cells.length + 1) lt c := by
  unfold World.pending
  rw [htasks]
  simp [List.getElem_append_right]

theorem quiet_of_tasks (w1 : World Req Res) (cells : List (TaskCell Res)) (lt : Lifetime)
    (c : RdId) (htasks : w1.tasks = cells ++ [⟨none, []⟩, ⟨none, [⟨lt, c⟩]⟩])
    (hnew : ∀ cell ∈ cells, ∀ ob ∈ cell.observers, ob.task_id ≠ c) :
    w1.quiet (cells.length + 1) c := by
  intro i cell hcell hi ob hob
  rw [htasks] at hcell
  by_cases hil : i < cells.length
  · rw [List.getElem?_append_left hil] at hcell
    exact hnew cell (List.mem_iff_getElem?.mpr ⟨i, hcell⟩) ob hob
  · have hi0 : i = cells.length ∨ cells.length + 2 ≤ i := by omega
    rcases hi0 with rfl | hbig
    · rw [List.getElem?_append_right (Nat.le_refl _)] at hcell
      simp at hcell
      subst hcell
      simp at hob
    · rw [List.getElem?_eq_none (by simp; omega)] at hcell
      cases hcell

/-- When the lifetime of a pending task ends and no other task has an observer for `c`, every
observer for `c` is on an ended lifetime. -/
theorem muted_of_terminate (w : World Req Res) (t : RdTask) (lt : Lifetime) (c : RdId)
    (hp : w.pending t lt c) (hq : w.quiet t c) (hbound : w.endpoint.bind_lifetime = some lt) :
    (Lifetime.terminate lt w).muted lt c := by
  refine ⟨by simp [Lifetime.terminate], hbound, ?_⟩
  intro i cell hcell ob hob hc
  have hcell' : w.tasks[i]? = some cell := hcell
  by_cases hi : i = t
  · subst hi
    unfold World.pending at hp
    rw [hp] at hcell'
    cases hcell'
    simp at hob
    subst hob
    simp [Lifetime.terminate]
  · exact absurd hc (hq i cell hcell' hi ob hob)

/-- No event registers an observer on a task that exists already and has none. -/
theorem step_idle (S : Serializers Req) (w : World Req Res) (t : RdTask) (e : Event Res)
    (hi : w.idle t) : (w.step S e).idle t := by
  obtain ⟨state, hcell⟩ := hi
  have hlen : t < w.tasks.length := (List.getElem?_eq_some.mp hcell).1
  cases e with
  | wire_received buffer =>
    obtain ⟨_, _, _, _, extra, frames, htasks, _, _, _⟩ := on_wire_received_effect S buffer w
    refine ⟨state, ?_⟩
    simp only [World.step]
    rw [htasks, List.getElem?_append_left hlen]
    exact hcell
  | complete task r =>
    simp only [World.idle, World.step]
    rcases set_result_eq task r w with h | ⟨obs, _, h⟩
    · rw [h]
      exact ⟨state, hcell⟩
    · rw [h]
      by_cases hne : task = t
      · subst hne
        exact ⟨some r, by simp only [List.getElem?_set_self hlen]⟩
      · exact ⟨state, by simp only [List.getElem?_set_ne hne]; exact hcell⟩
  | terminate lifetime => exact ⟨state, hcell⟩

theorem run_idle (S : Serializers Req) (t : RdTask) (es : List (Event Res))
    (w : World Req Res) (hi : w.idle t) : (w.run S es).idle t := by
  induction es generalizing w with
  | nil => exact hi
  | cons e es ih => exact ih (w.step S e) (step_idle S w t e hi)

/-- Completing a task that has no observer sends nothing. -/
theorem set_result_idle (w : World Req Res) (t : RdTask) (o : RdTaskResult Res)
    (hi : w.idle t) : (RdTask.set_result t o w).sent = w.sent := by
  obtain ⟨state, hcell⟩ := hi
  rcases set_result_eq t o w with h | ⟨obs, hobs, h⟩
  · rw [h]
  · rw [hcell] at hobs
    cases hobs
    rw [h]
    simp

/-! ## The synchronous paths of `on_wire_received` -/

/-- C1: with a handler set from a plain function `f`, one `on_wire_received` of a frame
`(c, r)` that decodes, on a live bound lifetime, returns normally and sends exactly one frame:
it is tagged `c` (whatever the endpoint's own `rdid` is) and its body is `Success (f r)`. -/
theorem C1_plain_handler_sends_one_success_frame (S : Serializers Req) (w : World Req Res)
    (f : Req → Except Thrown Res) (lt : Lifetime) (buffer rest rest' : Buffer)
    (c : RdId) (r : Req) (v : Res)
    (hbound : w.endpoint.bind_lifetime = some lt) (hlive : lt ∉ w.terminated)
    (hid : S.id_read buffer = .ok (c, rest)) (hreq : S.req_read rest = .ok (r, rest'))
    (hf : f r = .ok v) :
    (RdEndpoint.on_wire_received S buffer
        { w with endpoint := w.endpoint.set_fn f }).2 = none ∧
    (RdEndpoint.on_wire_received S buffer
        { w with endpoint := w.endpoint.set_fn f }).1.sent = w.sent ++ [⟨c, .Success v⟩] := by
  simp [RdEndpoint.on_wire_received, RdEndpoint.set_fn, hid, hreq, hf, hbound,
    RdTask.from_result, RdTask.advise, RdTask.create, World.set_awaiting, Wire.send, hlive, List.getElem_append_right]

/-- Witness of C1: `f(x) = x + 1` and the frame `{call_id = 7, payload = 41}` give the one
frame `{call_id = 7, Success 42}`. -/
theorem C1_plain_handler_sends_one_success_frame_witness :
    (RdEndpoint.on_wire_received demo_serializers [7, 41]
        { RdEndpoint.init ⟨0⟩ demo_world with
          endpoint := (RdEndpoint.init ⟨0⟩ demo_world).endpoint.set_fn demo_succ }).2 = none ∧
    (RdEndpoint.on_wire_received demo_serializers [7, 41]
        { RdEndpoint.init ⟨0⟩ demo_world with
          endpoint := (RdEndpoint.init ⟨0⟩ demo_world).endpoint.set_fn demo_succ }).1.sent
      = [] ++ [⟨⟨7⟩, .Success 42⟩] :=
  C1_plain_handler_sends_one_success_frame demo_serializers (RdEndpoint.init ⟨0⟩ demo_world)
    demo_succ ⟨0⟩ [7, 41] [41] [] ⟨7⟩ 41 42 rfl (by decide) rfl rfl rfl

/-- C3: on an endpoint with no handler, a frame whose call id and request decode makes
`on_wire_received` throw `std::invalid_argument("handler is empty for RdEndPoint")` and leaves
the whole state as it was: no frame is sent and `awaiting_tasks` is unchanged. The endpoint
that `read` returns is such an endpoint. -/
theorem C3_missing_handler_throws_and_changes_nothing (S : Serializers Req)
    (w : World Req Res) (buffer rest rest' : Buffer) (c : RdId) (r : Req)
    (hnone : w.endpoint.handler = none)
    (hid : S.id_read buffer = .ok (c, rest)) (hreq : S.req_read rest = .ok (r, rest')) :
    (RdEndpoint.on_wire_received S buffer w).2
      = some (.exception (invalid_argument "handler is empty for RdEndPoint")) ∧
    (RdEndpoint.on_wire_received S buffer w).1.sent = w.sent ∧
    (RdEndpoint.on_wire_received S buffer w).1.endpoint.awaiting_tasks
      = w.endpoint.awaiting_tasks ∧
    (RdEndpoint.on_wire_received S buffer w).1 = w ∧
    (∀ (wire : Buffer) (ep : RdEndpoint Req Res) (left : Buffer),
      RdEndpoint.read S wire = .ok (ep, left) →
      RdEndpoint.on_wire_received S buffer { w with endpoint := ep }
        = ({ w with endpoint := ep },
            some (.exception (invalid_argument "handler is empty for RdEndPoint")))) := by
  refine ⟨?_, ?_, ?_, ?_, ?_⟩
  · simp [RdEndpoint.on_wire_received, hid, hreq, hnone]
  · simp [RdEndpoint.on_wire_received, hid, hreq, hnone]
  · simp [RdEndpoint.on_wire_received, hid, hreq, hnone]
  · simp [RdEndpoint.on_wire_received, hid, hreq, hnone]
  · intro wire ep left hread
    have hep : ep.handler = none := by
      unfold RdEndpoint.read at hread
      split at hread
      · cases hread
      · cases hread
        rfl
    simp [RdEndpoint.on_wire_received, hid, hreq, hep]

/-- Witness of C3: the frame `{call_id = 7, payload = 41}` on the handler-less demo endpoint. -/
theorem C3_missing_handler_throws_and_changes_nothing_witness :
    (RdEndpoint.on_wire_received demo_serializers [7, 41] (RdEndpoint.init ⟨0⟩ demo_world)).2
      = some (.exception (invalid_argument "handler is empty for RdEndPoint")) ∧
    (RdEndpoint.on_wire_received demo_serializers [7, 41] (RdEndpoint.init ⟨0⟩ demo_world)).1.sent
      = [] :=
  have key := C3_missing_handler_throws_and_changes_nothing demo_serializers
    (RdEndpoint.init ⟨0⟩ demo_world) [7, 41] [41] [] ⟨7⟩ 41 rfl rfl rfl
  ⟨key.1, key.2.1⟩

/-- C10: whatever the state of the endpoint, a frame whose call id reads but whose request fails
to decode makes `on_wire_received` throw the decode error; the handler is not invoked, no frame
is sent and `awaiting_tasks` is unchanged (the whole state is as it was). -/
theorem C10_decode_error_changes_nothing (S : Serializers Req) (w : World Req Res)
    (buffer rest : Buffer) (c : RdId) (e : Thrown)
    (hid : S.id_read buffer = .ok (c, rest)) (hreq : S.req_read rest = .error e) :
    (RdEndpoint.on_wire_received S buffer w).2 = some e ∧
    (RdEndpoint.on_wire_received S buffer w).1.handled = w.handled ∧
    (RdEndpoint.on_wire_received S buffer w).1.sent = w.sent ∧
    (RdEndpoint.on_wire_received S buffer w).1.endpoint.awaiting_tasks
      = w.endpoint.awaiting_tasks ∧
    ordered_map_find (RdEndpoint.on_wire_received S buffer w).1.endpoint.awaiting_tasks c
      = ordered_map_find w.endpoint.awaiting_tasks c ∧
    (RdEndpoint.on_wire_received S buffer w).1 = w := by
  simp [RdEndpoint.on_wire_received, hid, hreq]

/-- Witness of C10: a frame that holds the call id 7 and nothing else. -/
theorem C10_decode_error_changes_nothing_witness :
    (RdEndpoint.on_wire_received demo_serializers [7]
        (RdEndpoint.init ⟨0⟩ (demo_world.set_handler demo_partial))).2
      = some (.exception ⟨"end of buffer"⟩) ∧
    (RdEndpoint.on_wire_received demo_serializers [7]
        (RdEndpoint.init ⟨0⟩ (demo_world.set_handler demo_partial))).1.handled = [] :=
  have key := C10_decode_error_changes_nothing demo_serializers
    (RdEndpoint.init ⟨0⟩ (demo_world.set_handler demo_partial)) [7] [] ⟨7⟩
    (.exception ⟨"end of buffer"⟩) rfl rfl
  ⟨key.1, key.2.1⟩

/-! ## `read`, `write` and `set` -/

/-- C9: if `RdId::read` gives back `i` from a buffer that starts with the encoding of `i`,
leaving the rest, then `RdEndpoint::read` on that buffer returns an endpoint with `rdid = i`, no
handler and an empty `awaiting_tasks`, and leaves exactly the rest; `write` on any endpoint
appends exactly the encoding of its `rdid`, whatever its handler and `awaiting_tasks` are; so
`write` after `read` emits the encoding of `i`. -/
theorem C9_read_binds_id_and_write_emits_only_id (S : Serializers Req) (i : RdId)
    (rest out : Buffer) (ep : RdEndpoint Req Res)
    (hround : S.id_read (S.id_encode i ++ rest) = .ok (i, rest)) :
    (∃ e : RdEndpoint Req Res,
      RdEndpoint.read S (S.id_encode i ++ rest) = .ok (e, rest) ∧
      e.rdid = i ∧ e.handler = none ∧ e.awaiting_tasks = [] ∧
      e.write S out = out ++ S.id_encode i) ∧
    ep.write S out = out ++ S.id_encode ep.rdid ∧
    (∀ (h : Option (handler_t Req Res)) (table : List (RdId × RdTask)),
      RdEndpoint.write S { ep with handler := h, awaiting_tasks := table } out
        = ep.write S out) := by
  refine ⟨⟨withId RdEndpoint.default i, ?_, rfl, rfl, rfl, rfl⟩, rfl, ?_⟩
  · simp [RdEndpoint.read, hround]
  · intro h table
    rfl

/-- Witness of C9: the identifier 5 ahead of the units 8, 9. -/
theorem C9_read_binds_id_and_write_emits_only_id_witness :
    ∃ e : RdEndpoint Nat Nat,
      RdEndpoint.read demo_serializers (demo_serializers.id_encode ⟨5⟩ ++ [8, 9])
        = .ok (e, [8, 9]) ∧
      e.rdid = ⟨5⟩ ∧ e.handler = none ∧ e.awaiting_tasks = [] ∧
      e.write demo_serializers [3] = [3] ++ demo_serializers.id_encode ⟨5⟩ :=
  (C9_read_binds_id_and_write_emits_only_id demo_serializers ⟨5⟩ [8, 9] [3]
    demo_world.endpoint rfl).1

/-- C8 on the code: on an endpoint whose handler is already set (from `f(x) = x + 1`), a second
`set` with a non-empty task-returning handler reports nothing and replaces the handler, and a
second `set` with a plain function replaces it too. -/
theorem C8_second_set_replaces_the_handler_unreported :
    ((demo_world.endpoint.set_fn demo_succ).handler.map (fun h => h ⟨0⟩ 41))
      = some (.task (some (.Success 42))) ∧
    ((demo_world.endpoint.set_fn demo_succ).set (some demo_async)).2 = none ∧
    (((demo_world.endpoint.set_fn demo_succ).set (some demo_async)).1.handler.map
        (fun h => h ⟨0⟩ 41)) = some (.task none) ∧
    (((demo_world.endpoint.set_fn demo_succ).set_fn demo_boom).handler.map
        (fun h => h ⟨0⟩ 41)) = some (.throws (.exception ⟨"boom"⟩)) := by
  decide

/-- C6 on the code: after the frames `{call_id = 7, payload = 41}` and
`{call_id = 9, payload = 1}` have been handled by `f(x) = x + 1` and both responses have been
sent, `awaiting_tasks` still holds an entry for 7 and one for 9, each pointing at a task that is
terminal. -/
theorem C6_completed_calls_stay_in_awaiting_tasks :
    (World.run demo_serializers
        (RdEndpoint.init ⟨0⟩
          { demo_world with endpoint := demo_world.endpoint.set_fn demo_succ })
        [.wire_received [7, 41], .wire_received [9, 1]]).sent
      = [⟨⟨7⟩, .Success 42⟩, ⟨⟨9⟩, .Success 2⟩] ∧
    (World.run demo_serializers
        (RdEndpoint.init ⟨0⟩
          { demo_world with endpoint := demo_world.endpoint.set_fn demo_succ })
        [.wire_received [7, 41], .wire_received [9, 1]]).endpoint.awaiting_tasks
      = [(⟨7⟩, 1), (⟨9⟩, 3)] ∧
    (World.run demo_serializers
        (RdEndpoint.init ⟨0⟩
          { demo_world with endpoint := demo_world.endpoint.set_fn demo_succ })
        [.wire_received [7, 41], .wire_received [9, 1]]).tasks
      = [⟨none, []⟩, ⟨some (.Success 42), []⟩, ⟨none, []⟩, ⟨some (.Success 2), []⟩] := by
  decide

/-! ## Tasks that complete later -/

/-- C4: when the handler returns a task that is still `Active` for the frame `(c, r)`,
`on_wire_received` returns without sending a frame. It has invoked the handler once, with `r`,
and has created two task objects: the placeholder `{}` first put into the map slot, which has
no observer, and after it the task the handler returned, which has the one observer registered
on the bound lifetime for `c` and is what `awaiting_tasks` holds under `c`. Whatever events
follow that neither complete the handler's task nor end the bound lifetime, completing the
handler's task with an outcome `o` then sends exactly one frame, `(c, o)`, and a further
completion attempt sends nothing; completing the placeholder never sends anything. If no
observer for `c` was registered before and no other frame with call id `c` arrives, no frame
tagged `c` is sent before the task is completed. -/
theorem C4_active_task_is_answered_once_when_it_completes (S : Serializers Req)
    (w : World Req Res) (h : handler_t Req Res) (lt : Lifetime)
    (buffer rest rest' : Buffer) (c : RdId) (r : Req)
    (hh : w.endpoint.handler = some h)
    (hbound : w.endpoint.bind_lifetime = some lt) (hlive : lt ∉ w.terminated)
    (hid : S.id_read buffer = .ok (c, rest)) (hreq : S.req_read rest = .ok (r, rest'))
    (hactive : h lt r = .task none) :
    (RdEndpoint.on_wire_received S buffer w).2 = none ∧
    (RdEndpoint.on_wire_received S buffer w).1.sent = w.sent ∧
    (RdEndpoint.on_wire_received S buffer w).1.handled = w.handled ++ [r] ∧
    (RdEndpoint.on_wire_received S buffer w).1.tasks
      = w.tasks ++ [⟨none, []⟩, ⟨none, [⟨lt, c⟩]⟩] ∧
    ∃ t : RdTask,
      t = w.tasks.length + 1 ∧
      ordered_map_find (RdEndpoint.on_wire_received S buffer w).1.endpoint.awaiting_tasks c
        = some t ∧
      (∀ (es : List (Event Res)) (o o' : RdTaskResult Res),
        (∀ e ∈ es, Event.spares t lt e) →
        (RdTask.set_result t o
            (World.run S (RdEndpoint.on_wire_received S buffer w).1 es)).sent
          = (World.run S (RdEndpoint.on_wire_received S buffer w).1 es).sent ++ [⟨c, o⟩] ∧
        (RdTask.set_result t o' (RdTask.set_result t o
            (World.run S (RdEndpoint.on_wire_received S buffer w).1 es))).sent
          = (World.run S (RdEndpoint.on_wire_received S buffer w).1 es).sent ++ [⟨c, o⟩]) ∧
      (∀ (es : List (Event Res)) (o : RdTaskResult Res),
        (RdTask.set_result w.tasks.length o
            (World.run S (RdEndpoint.on_wire_received S buffer w).1 es)).sent
          = (World.run S (RdEndpoint.on_wire_received S buffer w).1 es).sent) ∧
      (∀ es : List (Event Res),
        (∀ cell ∈ w.tasks, ∀ ob ∈ cell.observers, ob.task_id ≠ c) →
        (∀ e ∈ es, Event.spares t lt e ∧ Event.foreign S c e) →
        (World.run S (RdEndpoint.on_wire_received S buffer w).1 es).sent_for c
          = w.sent_for c) := by
  obtain ⟨hret, hsent, hterm, hhandled, htasks, hfind⟩ :=
    on_wire_received_active S w h lt buffer rest rest' c r hh hbound hlive hid hreq hactive
  have hp := pending_of_tasks _ w.tasks lt c htasks
  have hlive1 : lt ∉ (RdEndpoint.on_wire_received S buffer w).1.terminated := by
    rw [hterm]
    exact hlive
  have hidle : (RdEndpoint.on_wire_received S buffer w).1.idle w.tasks.length := by
    refine ⟨none, ?_⟩
    rw [htasks, List.getElem?_append_right (Nat.le_refl _)]
    simp
  refine ⟨hret, hsent, hhandled, htasks, w.tasks.length + 1, rfl, hfind, ?_, ?_, ?_⟩
  · intro es o o' hes
    obtain ⟨hpe, hle⟩ := run_pending S (w.tasks.length + 1) lt c es _ hp hlive1 hes
    have hdone := set_result_pending _ _ lt c o hpe hle
    refine ⟨by rw [hdone], ?_⟩
    have hlen := pending_lt_length _ _ lt c hpe
    have hagain : RdTask.set_result (w.tasks.length + 1) o'
        (RdTask.set_result (w.tasks.length + 1) o
          (World.run S (RdEndpoint.on_wire_received S buffer w).1 es))
        = RdTask.set_result (w.tasks.length + 1) o
          (World.run S (RdEndpoint.on_wire_received S buffer w).1 es) := by
      rw [hdone]
      simp [RdTask.set_result, List.getElem?_set_self hlen]
    rw [hagain, hdone]
  · intro es o
    exact set_result_idle _ _ o (run_idle S _ es _ hidle)
  · intro es hnew hes
    have hq := quiet_of_tasks _ w.tasks lt c htasks hnew
    have := (run_quiet S (w.tasks.length + 1) lt c es _ hp hq hes).2
    rw [this]
    simp only [World.sent_for]
    rw [hsent]

/-- Witness of C4: while the call 9 is pending (two task objects exist), the frame
`{call_id = 7, payload = 41}` arrives and its task stays `Active`. Nothing is sent, the handler
has been invoked with 41, the handler's task has the handle 3 and is held under 7; completing
it with `Success 42` sends `{call_id = 7, Success 42}`, completing the placeholder (handle 2)
sends nothing. -/
theorem C4_active_task_is_answered_once_when_it_completes_witness :
    (RdEndpoint.on_wire_received demo_serializers [7, 41] demo_busy_world).1.sent
      = demo_busy_world.sent ∧
    (RdEndpoint.on_wire_received demo_serializers [7, 41] demo_busy_world).1.handled
      = demo_busy_world.handled ++ [41] ∧
    ordered_map_find
      (RdEndpoint.on_wire_received demo_serializers [7, 41]
        demo_busy_world).1.endpoint.awaiting_tasks ⟨7⟩ = some 3 ∧
    (RdTask.set_result 3 (.Success 42)
        (RdEndpoint.on_wire_received demo_serializers [7, 41] demo_busy_world).1).sent
      = (RdEndpoint.on_wire_received demo_serializers [7, 41] demo_busy_world).1.sent
        ++ [⟨⟨7⟩, .Success 42⟩] ∧
    (RdTask.set_result 2 (.Success 42)
        (RdEndpoint.on_wire_received demo_serializers [7, 41] demo_busy_world).1).sent
      = (RdEndpoint.on_wire_received demo_serializers [7, 41] demo_busy_world).1.sent :=
  have key := C4_active_task_is_answered_once_when_it_completes demo_serializers
    demo_busy_world demo_async ⟨0⟩ [7, 41] [41] [] ⟨7⟩ 41 rfl rfl (by decide) rfl rfl rfl
  key.2.2.2.2.elim fun t ht =>
    have ht3 : t = 3 := ht.1
    ⟨key.2.1, key.2.2.1, ht3 ▸ ht.2.1,
      (ht3 ▸ ht.2.2.1) [] (.Success 42) .Cancelled (by simp [Event.spares]) |>.1,
      ht.2.2.2.1 [] (.Success 42)⟩

/-- C5: the endpoint is bound with `init lt`; the handler returns a task that is still `Active`
for the frame `(c, r)`, no observer for `c` was registered before, and up to the end of `lt`
neither the task is completed nor another frame with call id `c` arrives. Once `lt` has ended,
whatever happens afterwards, completions of the task included, no frame tagged `c` is sent. -/
theorem C5_no_frame_after_the_bound_lifetime_ended (S : Serializers Req)
    (w : World Req Res) (h : handler_t Req Res) (lt : Lifetime)
    (buffer rest rest' : Buffer) (c : RdId) (r : Req)
    (hh : w.endpoint.handler = some h) (hlive : lt ∉ w.terminated)
    (hid : S.id_read buffer = .ok (c, rest)) (hreq : S.req_read rest = .ok (r, rest'))
    (hactive : h lt r = .task none)
    (hnew : ∀ cell ∈ w.tasks, ∀ ob ∈ cell.observers, ob.task_id ≠ c) :
    ∃ t : RdTask,
      ordered_map_find
        (RdEndpoint.on_wire_received S buffer (RdEndpoint.init lt w)).1.endpoint.awaiting_tasks c
        = some t ∧
      ∀ (before after : List (Event Res)),
        (∀ e ∈ before, Event.spares t lt e ∧ Event.foreign S c e) →
        (World.run S
            (Lifetime.terminate lt
              (World.run S
                (RdEndpoint.on_wire_received S buffer (RdEndpoint.init lt w)).1 before))
            after).sent_for c
          = w.sent_for c := by
  obtain ⟨_, hsent, hterm, _, htasks, hfind⟩ :=
    on_wire_received_active S (RdEndpoint.init lt w) h lt buffer rest rest' c r hh rfl hlive
      hid hreq hactive
  have hbound1 := (on_wire_received_effect S buffer (RdEndpoint.init lt w)).2.2.1
  have htasks' : (RdEndpoint.on_wire_received S buffer (RdEndpoint.init lt w)).1.tasks
      = w.tasks ++ [⟨none, []⟩, ⟨none, [⟨lt, c⟩]⟩] := htasks
  have hp := pending_of_tasks _ w.tasks lt c htasks'
  have hq := quiet_of_tasks _ w.tasks lt c htasks' hnew
  have hlive1 : lt ∉ (RdEndpoint.on_wire_received S buffer (RdEndpoint.init lt w)).1.terminated := by
    rw [hterm]
    exact hlive
  refine ⟨w.tasks.length + 1, hfind, ?_⟩
  intro before after hbefore
  obtain ⟨hpb, _⟩ := run_pending S (w.tasks.length + 1) lt c before _ hp hlive1
    (fun e he => (hbefore e he).1)
  obtain ⟨hqb, hsb⟩ := run_quiet S (w.tasks.length + 1) lt c before _ hp hq hbefore
  have hbb := (run_bind_lifetime S before
    (RdEndpoint.on_wire_received S buffer (RdEndpoint.init lt w)).1).trans hbound1
  have hm := muted_of_terminate _ (w.tasks.length + 1) lt c hpb hqb hbb
  rw [run_muted S lt c after _ hm]
  have hst : (Lifetime.terminate lt
      (World.run S (RdEndpoint.on_wire_received S buffer (RdEndpoint.init lt w)).1
        before)).sent_for c
      = (World.run S (RdEndpoint.on_wire_received S buffer (RdEndpoint.init lt w)).1
        before).sent_for c := rfl
  rw [hst, hsb]
  simp only [World.sent_for]
  rw [hsent]
  rfl

/-- Witness of C5: while the call 9 is pending, the handler's task for
`{call_id = 7, payload = 41}` stays `Active`; the call 9 is answered, the lifetime ends, the
task of the call 7 is completed and another frame arrives: nothing goes out under 7. -/
theorem C5_no_frame_after_the_bound_lifetime_ended_witness :
    ∃ t : RdTask,
      ordered_map_find
        (RdEndpoint.on_wire_received demo_serializers [7, 41]
          (RdEndpoint.init ⟨0⟩ demo_busy_world)).1.endpoint.awaiting_tasks ⟨7⟩ = some t ∧
      (World.run demo_serializers
          (Lifetime.terminate ⟨0⟩
            (World.run demo_serializers
              (RdEndpoint.on_wire_received demo_serializers [7, 41]
                (RdEndpoint.init ⟨0⟩ demo_busy_world)).1
              [.complete 1 (.Success 2)]))
          [.complete 3 (.Success 42), .wire_received [7, 5]]).sent_for ⟨7⟩
        = demo_busy_world.sent_for ⟨7⟩ :=
  (C5_no_frame_after_the_bound_lifetime_ended demo_serializers
    demo_busy_world demo_async ⟨0⟩ [7, 41] [41] [] ⟨7⟩ 41
    rfl (by decide) rfl rfl rfl (by decide)).elim fun t ht =>
    ⟨t, ht.1, ht.2 [.complete 1 (.Success 2)] [.complete 3 (.Success 42), .wire_received [7, 5]]
      (by
        have hfind : ordered_map_find
            (RdEndpoint.on_wire_received demo_serializers [7, 41]
              (RdEndpoint.init ⟨0⟩ demo_busy_world)).1.endpoint.awaiting_tasks ⟨7⟩
            = some 3 := by decide
        have ht3 : t = 3 := Option.some.inj (ht.1.symm.trans hfind)
        subst ht3
        intro e he
        rw [List.mem_singleton] at he
        subst he
        exact ⟨by decide, by decide⟩)⟩

/-! ## Two frames with one call id -/

/-- C7 fails on the code: two frames with call id 7 arrive, the first handler task (handle 1)
is still `Active` when the second arrives, then both handler tasks complete. Two frames tagged
7 are sent, not at most one. -/
theorem C7_two_frames_for_one_call_id_counterexample :
    (World.run demo_serializers (RdEndpoint.init ⟨0⟩ (demo_world.set_handler demo_async))
        [.wire_received [7, 1]]).tasks[1]? = some ⟨none, [⟨⟨0⟩, ⟨7⟩⟩]⟩ ∧
    (World.run demo_serializers (RdEndpoint.init ⟨0⟩ (demo_world.set_handler demo_async))
        [.wire_received [7, 1], .wire_received [7, 2],
          .complete 1 (.Success 10), .complete 3 (.Success 20)]).sent
      = [⟨⟨7⟩, .Success 10⟩, ⟨⟨7⟩, .Success 20⟩] ∧
    ¬ ((World.run demo_serializers (RdEndpoint.init ⟨0⟩ (demo_world.set_handler demo_async))
        [.wire_received [7, 1], .wire_received [7, 2],
          .complete 1 (.Success 10), .complete 3 (.Success 20)]).sent_for ⟨7⟩).length ≤ 1 := by
  decide

/-- C7 as amended: two frames `(c, r1)`, `(c, r2)` arrive and the handler returns a still
`Active` task for each. The handler has been invoked for both, nothing has been sent, and
`awaiting_tasks` holds the second task under `c`; the observer of the first task stays
registered. Whatever events follow that complete neither task and do not end the bound
lifetime, completing the two tasks then sends one frame tagged `c` for each, with that task's
outcome, in the order of completion. -/
theorem C7_each_task_for_the_call_id_sends_its_own_frame (S : Serializers Req)
    (w : World Req Res) (h : handler_t Req Res) (lt : Lifetime)
    (buffer1 rest1 rest1' buffer2 rest2 rest2' : Buffer) (c : RdId) (r1 r2 : Req)
    (hh : w.endpoint.handler = some h)
    (hbound : w.endpoint.bind_lifetime = some lt) (hlive : lt ∉ w.terminated)
    (hid1 : S.id_read buffer1 = .ok (c, rest1)) (hreq1 : S.req_read rest1 = .ok (r1, rest1'))
    (hactive1 : h lt r1 = .task none)
    (hid2 : S.id_read buffer2 = .ok (c, rest2)) (hreq2 : S.req_read rest2 = .ok (r2, rest2'))
    (hactive2 : h lt r2 = .task none) :
    (RdEndpoint.on_wire_received S buffer2 (RdEndpoint.on_wire_received S buffer1 w).1).1.sent
      = w.sent ∧
    (RdEndpoint.on_wire_received S buffer2
        (RdEndpoint.on_wire_received S buffer1 w).1).1.handled = w.handled ++ [r1, r2] ∧
    ∃ t1 t2 : RdTask,
      t1 ≠ t2 ∧
      ordered_map_find (RdEndpoint.on_wire_received S buffer1 w).1.endpoint.awaiting_tasks c
        = some t1 ∧
      ordered_map_find
        (RdEndpoint.on_wire_received S buffer2
          (RdEndpoint.on_wire_received S buffer1 w).1).1.endpoint.awaiting_tasks c = some t2 ∧
      ∀ (es : List (Event Res)) (o1 o2 : RdTaskResult Res),
        (∀ e ∈ es, Event.spares t1 lt e ∧ Event.spares t2 lt e) →
        (RdTask.set_result t2 o2 (RdTask.set_result t1 o1
            (World.run S (RdEndpoint.on_wire_received S buffer2
              (RdEndpoint.on_wire_received S buffer1 w).1).1 es))).sent
          = (World.run S (RdEndpoint.on_wire_received S buffer2
              (RdEndpoint.on_wire_received S buffer1 w).1).1 es).sent
            ++ [⟨c, o1⟩, ⟨c, o2⟩] ∧
        (RdTask.set_result t1 o1 (RdTask.set_result t2 o2
            (World.run S (RdEndpoint.on_wire_received S buffer2
              (RdEndpoint.on_wire_received S buffer1 w).1).1 es))).sent
          = (World.run S (RdEndpoint.on_wire_received S buffer2
              (RdEndpoint.on_wire_received S buffer1 w).1).1 es).sent
            ++ [⟨c, o2⟩, ⟨c, o1⟩] := by
  obtain ⟨_, hsent1, hterm1, hhandled1, htasks1, hfind1⟩ :=
    on_wire_received_active S w h lt buffer1 rest1 rest1' c r1 hh hbound hlive hid1 hreq1
      hactive1
  obtain ⟨_, hh1, hbound1, _⟩ := on_wire_received_effect S buffer1 w
  have hlive1 : lt ∉ (RdEndpoint.on_wire_received S buffer1 w).1.terminated := by
    rw [hterm1]
    exact hlive
  obtain ⟨_, hsent2, hterm2, hhandled2, htasks2, hfind2⟩ :=
    on_wire_received_active S (RdEndpoint.on_wire_received S buffer1 w).1 h lt buffer2 rest2
      rest2' c r2 (hh1.trans hh) (hbound1.trans hbound) hlive1 hid2 hreq2 hactive2
  have hlive2 : lt ∉ (RdEndpoint.on_wire_received S buffer2
      (RdEndpoint.on_wire_received S buffer1 w).1).1.terminated := by
    rw [hterm2]
    exact hlive1
  have hp1 := pending_of_tasks _ w.tasks lt c htasks1
  have hp1' : (RdEndpoint.on_wire_received S buffer2
      (RdEndpoint.on_wire_received S buffer1 w).1).1.pending (w.tasks.length + 1) lt c :=
    step_pending S _ (w.tasks.length + 1) lt c (.wire_received buffer2) hp1 trivial
  have hp2 := pending_of_tasks _ _ lt c htasks2
  have hne : w.tasks.length + 1 ≠ (RdEndpoint.on_wire_received S buffer1 w).1.tasks.length + 1 := by
    rw [htasks1]
    simp
  refine ⟨by rw [hsent2, hsent1], by rw [hhandled2, hhandled1]; simp, w.tasks.length + 1,
    (RdEndpoint.on_wire_received S buffer1 w).1.tasks.length + 1, hne, hfind1, hfind2, ?_⟩
  intro es o1 o2 hes
  obtain ⟨hq1, hl⟩ := run_pending S _ lt c es _ hp1' hlive2 (fun e he => (hes e he).1)
  obtain ⟨hq2, _⟩ := run_pending S _ lt c es _ hp2 hlive2 (fun e he => (hes e he).2)
  constructor
  · have hd1 := set_result_pending _ _ lt c o1 hq1 hl
    have hq2' := step_pending S _ _ lt c (.complete (w.tasks.length + 1) o1) hq2 hne
    have hl' := step_alive S _ ((RdEndpoint.on_wire_received S buffer1 w).1.tasks.length + 1)
      lt (.complete (w.tasks.length + 1) o1) hl hne
    have hd2 := set_result_pending _ _ lt c o2 hq2' hl'
    simp only [World.step] at hd2
    rw [hd2, hd1]
    simp
  · have hd2 := set_result_pending _ _ lt c o2 hq2 hl
    have hq1' := step_pending S _ _ lt c
      (.complete ((RdEndpoint.on_wire_received S buffer1 w).1.tasks.length + 1) o2) hq1
      (Ne.symm hne)
    have hl' := step_alive S _ (w.tasks.length + 1) lt
      (.complete ((RdEndpoint.on_wire_received S buffer1 w).1.tasks.length + 1) o2) hl
      (Ne.symm hne)
    have hd1 := set_result_pending _ _ lt c o1 hq1' hl'
    simp only [World.step] at hd1
    rw [hd1, hd2]
    simp

/-- Witness of C7 as amended: the frames `{call_id = 7, payload = 1}` and
`{call_id = 7, payload = 2}` with a handler whose tasks stay `Active`. -/
theorem C7_each_task_for_the_call_id_sends_its_own_frame_witness :
    (RdEndpoint.on_wire_received demo_serializers [7, 2]
        (RdEndpoint.on_wire_received demo_serializers [7, 1]
          (RdEndpoint.init ⟨0⟩ (demo_world.set_handler demo_async))).1).1.sent = [] ∧
    (RdEndpoint.on_wire_received demo_serializers [7, 2]
        (RdEndpoint.on_wire_received demo_serializers [7, 1]
          (RdEndpoint.init ⟨0⟩ (demo_world.set_handler demo_async))).1).1.handled
      = [] ++ [1, 2] :=
  have key := C7_each_task_for_the_call_id_sends_its_own_frame demo_serializers
    (RdEndpoint.init ⟨0⟩ (demo_world.set_handler demo_async)) demo_async ⟨0⟩
    [7, 1] [1] [] [7, 2] [2] [] ⟨7⟩ 1 2 rfl rfl (by decide) rfl rfl rfl rfl rfl rfl
  ⟨key.1, key.2.1⟩

end rd
